import Mathlib

/-!
Verification of the LOD signal generator (`src/signal_generator.py`) and the
query-parameter layer of the dashboard app (`src/app.py`).

The embedding follows the Python source:
* instants and durations are integer microsecond counts (the resolution of
  Python `datetime` / `timedelta`);
* floating-point values are modelled as rationals, with Python `round`
  modelled as round-half-to-even;
* the random source (`random.gauss`) is modelled as an ambient stream
  `z : ℕ → ℚ` of standard draws, consumed sequentially, so that
  `random.gauss(mu, sigma)` is `mu + sigma * z k` for the next index `k`.
-/

namespace SignalGen

/-- Microseconds per second: Python `datetime` arithmetic has microsecond
resolution, so instants and durations are modelled as integer microsecond
counts. -/
def usPerSecond : Int := 1000000

/-- Microseconds per day. -/
def usPerDay : Int := 86400 * usPerSecond

/-- Python `timedelta.days`: the whole-day part of a duration. Python normalizes
`timedelta` so that `days` is the floor of the total duration in days. -/
def tdDays (us : Int) : Int := Int.fdiv us usPerDay

/-- Round a rational to the nearest integer, ties to even: the semantics of
Python `round` (banker's rounding). -/
def roundHalfEven (x : ℚ) : ℤ :=
  if x - ⌊x⌋ < 1 / 2 then ⌊x⌋
  else if 1 / 2 < x - ⌊x⌋ then ⌊x⌋ + 1
  else if ⌊x⌋ % 2 = 0 then ⌊x⌋ else ⌊x⌋ + 1

/-- Python `round(x, 2)`: round to two decimal digits. -/
def round2 (x : ℚ) : ℚ := (roundHalfEven (x * 100) : ℚ) / 100

/-- Function `get_aggregation_level(duration)` from `src/signal_generator.py`: pick
`(interval_seconds, level_name, samples_per_interval)` from `duration.days`. -/
def get_aggregation_level (duration : Int) : Int × String × ℕ :=
  if tdDays duration > 365 then (7 * 24 * 60 * 60, "weekly", 7)
  else if tdDays duration > 7 then (24 * 60 * 60, "daily", 6)
  else if tdDays duration > 1 then (60 * 60, "hourly", 4)
  else (60, "minutely", 2)

/-- Python `random.gauss(mu, sigma)` for a standard draw `z`: a normal sample is
`mu + sigma * z`. -/
def gauss (mu sigma z : ℚ) : ℚ := mu + sigma * z

/-- Function `calculate_average_value(base_value, variance)` from
`src/signal_generator.py`: `round(random.gauss(base_value, variance), 2)`. -/
def calculate_average_value (base_value variance z : ℚ) : ℚ :=
  round2 (gauss base_value variance z)

/-- The `signal_base_values` dict of `generate_historical_signals`. -/
def signal_base_values : List (String × ℚ) :=
  [("Temperature", 20), ("Humidity", 60), ("Pressure", 1013),
   ("Power", 500), ("Flow", 100)]

/-- Python `'_' in signal_id`. -/
def containsChar (c : Char) (s : String) : Bool := s.toList.contains c

/-- Python `signal_id.split('_')[0]`: the segment before the first occurrence of the
separator (the whole string when the separator does not occur). -/
def headSegment (c : Char) (s : String) : String :=
  String.mk (s.toList.takeWhile (fun a => a ≠ c))

/-- The dictionary key used by the base-value lookup:
`signal_id.split('_')[0] if '_' in signal_id else signal_id`. -/
def base_key (signal_id : String) : String :=
  if containsChar '_' signal_id then headSegment '_' signal_id else signal_id

/-- The base value chosen by `generate_historical_signals`:
`signal_base_values.get(key, 50)`. -/
def base_value (signal_id : String) : ℚ :=
  ((signal_base_values.lookup (base_key signal_id)).getD 50)

/-- One aggregate reading emitted by the builder (`signal` dict in the loop
body of `generate_historical_signals`). -/
structure SignalPoint where
  id : String
  timestamp : Int
  value : ℚ
  status : String
  aggregation_level : String
  sample_count : ℕ
  min_value : ℚ
  max_value : ℚ
deriving DecidableEq

/-- The clamp `max(0, min(100, sample_value))` applied to each raw sample. -/
def clamp100 (v : ℚ) : ℚ := max 0 (min 100 v)

/-- Per-sample status: `> 90` critical, `> 60` high, else normal. -/
def sample_status (v : ℚ) : String :=
  if v > 90 then "critical" else if v > 60 then "high" else "normal"

/-- The `samples_per_interval` clamped draws of one interval; the draw stream
`z` is consumed sequentially starting at index `k`. -/
def interval_samples (z : ℕ → ℚ) (k : ℕ) (base : ℚ) (n : ℕ) : List ℚ :=
  (List.range n).map fun i => clamp100 (calculate_average_value base 10 (z (k + i)))

/-- Python `min` over a list (total model; the builder only applies it to
nonempty sample lists, where the default is unreachable). -/
def pyMin : List ℚ → ℚ
  | [] => 0
  | v :: vs => vs.foldl min v

/-- Python `max` over a list (total model; see `pyMin`). -/
def pyMax : List ℚ → ℚ
  | [] => 0
  | v :: vs => vs.foldl max v

/-- The loop body of `generate_historical_signals`: aggregate the raw samples
of the interval starting at `current` into one `SignalPoint`. -/
def mkPoint (signal_id level_name : String) (n : ℕ) (samples : List ℚ)
    (current : Int) : SignalPoint :=
  let avg_value := round2 (samples.sum / (samples.length : ℚ))
  let sample_statuses := samples.map sample_status
  let critical_count := sample_statuses.count "critical"
  let high_count := sample_statuses.count "high"
  let critical_threshold := (n : ℚ) * (3 / 10)
  let high_threshold := (n : ℚ) * (3 / 10)
  let status :=
    if (critical_count : ℚ) > critical_threshold then "critical"
    else if (high_count : ℚ) > high_threshold then "high"
    else "normal"
  { id := signal_id, timestamp := current, value := avg_value, status := status,
    aggregation_level := level_name, sample_count := n,
    min_value := round2 (pyMin samples), max_value := round2 (pyMax samples) }

/-- The `while current_time < end_time` loop of `generate_historical_signals`;
`interval_us` is the step in microseconds (`timedelta(seconds=interval_seconds)`)
and must be positive for the loop to terminate. -/
def genLoop (signal_id level_name : String) (base : ℚ) (n : ℕ) (interval_us : Int)
    (hpos : 0 < interval_us) (z : ℕ → ℚ) (k : ℕ) (current end_ : Int) :
    List SignalPoint :=
  if _h : current < end_ then
    mkPoint signal_id level_name n (interval_samples z k base n) current ::
      genLoop signal_id level_name base n interval_us hpos z (k + n)
        (current + interval_us) end_
  else []
termination_by (end_ - current).toNat
decreasing_by simp_wf; omega

/-- Function `generate_historical_signals(signal_id, start_time, end_time)` from
`src/signal_generator.py`, with the draw stream `z` made explicit; the
embedded proof that the planned interval is positive justifies the loop's
termination. -/
def generate_historical_signals (signal_id : String) (start_time end_time : Int)
    (z : ℕ → ℚ) : List SignalPoint :=
  genLoop signal_id (get_aggregation_level (end_time - start_time)).2.1
    (base_value signal_id) (get_aggregation_level (end_time - start_time)).2.2
    ((get_aggregation_level (end_time - start_time)).1 * usPerSecond)
    (by unfold get_aggregation_level usPerSecond; split_ifs <;> norm_num)
    z 0 start_time end_time

/-- The number of iterations performed by the builder loop: the ceiling of
`(end_ - current) / interval_us`, and `0` for a non-positive span. -/
def stepCount (interval_us current end_ : Int) : ℕ :=
  ((end_ - current + interval_us - 1) / interval_us).toNat

/-- Days from 1970-01-01 of a proleptic-Gregorian civil date (the calendar of
Python `datetime.date`), via the standard era/year-of-era decomposition. -/
def daysFromCivil (y m d : Int) : Int :=
  let yAdj := if m ≤ 2 then y - 1 else y
  let era := yAdj / 400
  let yoe := yAdj - era * 400
  let mp := if 2 < m then m - 3 else m + 9
  let doy := (153 * mp + 2) / 5 + d - 1
  let doe := yoe * 365 + yoe / 4 - yoe / 100 + doy
  era * 146097 + doe - 719468

/-- The microsecond instant of a naive `datetime(y, m, d, hh, mi, ss)`. -/
def datetimeUs (y m d hh mi ss : Int) : Int :=
  (daysFromCivil y m d * 86400 + hh * 3600 + mi * 60 + ss) * usPerSecond

/-- The all-zero draw stream, used for concrete witness runs. -/
def zeroDraws : ℕ → ℚ := fun _ => 0

/-- A Python `datetime` as handled by `src/app.py`: a wall-clock microsecond
value plus optional tzinfo (UTC offset in minutes); `none` is a naive
datetime. -/
structure PyDatetime where
  us : Int
  tzOffsetMin : Option Int
deriving DecidableEq

/-- Python `datetime` subtraction: mixing a naive and an aware operand raises
`TypeError`; matching operands subtract (aware ones in UTC). -/
def dtSub (a b : PyDatetime) : Except String Int :=
  match a.tzOffsetMin, b.tzOffsetMin with
  | none, none => .ok (a.us - b.us)
  | some ta, some tb =>
      .ok ((a.us - ta * 60 * usPerSecond) - (b.us - tb * 60 * usPerSecond))
  | _, _ => .error "TypeError: cannot subtract mixed naive and aware datetimes"

/-- Python `dt - timedelta(minutes=m)`: tzinfo is preserved. -/
def dtSubMinutes (a : PyDatetime) (m : Int) : PyDatetime :=
  { a with us := a.us - m * 60 * usPerSecond }

/-- Python `dt.replace(tzinfo=None)`. -/
def dtStripTz (a : PyDatetime) : PyDatetime := { a with tzOffsetMin := none }

/-- The numeric value of a decimal digit character (`none` otherwise). -/
def digitVal (c : Char) : Option ℕ :=
  if c.isDigit then some (c.toNat - 48) else none

def twoDigits (a b : Char) : Option ℕ := do
  let x ← digitVal a
  let y ← digitVal b
  pure (10 * x + y)

def fourDigits (a b c d : Char) : Option ℕ := do
  let x ← twoDigits a b
  let y ← twoDigits c d
  pure (100 * x + y)

/-- Parse the digit fields of `YYYY-MM-DD HH:MM:SS` into a naive datetime,
validating field ranges as Python does (days are checked against 31 only:
finer per-month validation is not needed by any input below). -/
def mkNaiveDt (y1 y2 y3 y4 mo1 mo2 d1 d2 h1 h2 mi1 mi2 s1 s2 : Char) :
    Option PyDatetime := do
  let y ← fourDigits y1 y2 y3 y4
  let mo ← twoDigits mo1 mo2
  let d ← twoDigits d1 d2
  let hh ← twoDigits h1 h2
  let mi ← twoDigits mi1 mi2
  let ss ← twoDigits s1 s2
  if 1 ≤ mo ∧ mo ≤ 12 ∧ 1 ≤ d ∧ d ≤ 31 ∧ hh ≤ 23 ∧ mi ≤ 59 ∧ ss ≤ 59 then
    pure ⟨datetimeUs y mo d hh mi ss, none⟩
  else none

/-- Parse a `±HH:MM` UTC offset into minutes. -/
def offsetMinutes (sgn o1 o2 o3 o4 : Char) : Option Int := do
  let oh ← twoDigits o1 o2
  let om ← twoDigits o3 o4
  if oh ≤ 23 ∧ om ≤ 59 then
    if sgn = '+' then pure ((oh : Int) * 60 + om)
    else if sgn = '-' then pure (-((oh : Int) * 60 + om))
    else none
  else none

/-- Modelled subset of Python `datetime.fromisoformat`: accepts
`YYYY-MM-DDTHH:MM:SS`, optionally followed by a `±HH:MM` UTC offset, and
rejects anything else (`none`, modelling `ValueError`). Python accepts more
layouts; every input appearing below lies in this common subset. -/
def fromisoformat (s : String) : Option PyDatetime :=
  match s.toList with
  | [y1, y2, y3, y4, '-', mo1, mo2, '-', d1, d2, 'T',
     h1, h2, ':', mi1, mi2, ':', s1, s2] =>
      mkNaiveDt y1 y2 y3 y4 mo1 mo2 d1 d2 h1 h2 mi1 mi2 s1 s2
  | [y1, y2, y3, y4, '-', mo1, mo2, '-', d1, d2, 'T',
     h1, h2, ':', mi1, mi2, ':', s1, s2, sgn, o1, o2, ':', o3, o4] =>
      (mkNaiveDt y1 y2 y3 y4 mo1 mo2 d1 d2 h1 h2 mi1 mi2 s1 s2).bind fun dt =>
        (offsetMinutes sgn o1 o2 o3 o4).map fun off =>
          { dt with tzOffsetMin := some off }
  | _ => none

/-- Python `v.replace('Z', '+00:00')`: the pattern is a single character, so the
replacement is a per-character expansion. -/
def replaceZ (s : String) : String :=
  String.mk ((s.toList.map fun c => if c = 'Z' then "+00:00".toList else [c]).flatten)

/-- Python `str.lower()` (ASCII case folding suffices for the inputs used). -/
def pyLower (s : String) : String := String.mk (s.toList.map Char.toLower)

/-- Python `str.split(sep)` for a one-character separator. -/
def splitOnSep (sep : Char) : List Char → List (List Char)
  | [] => [[]]
  | c :: cs =>
    let r := splitOnSep sep cs
    if c = sep then [] :: r
    else
      match r with
      | [] => [[c]]
      | h :: t => (c :: h) :: t

/-- Python `str.split(sep, 1)` when the separator occurs: the text before the
first separator and the text after it; `none` when the separator is absent. -/
def splitFirst (sep : Char) : List Char → Option (List Char × List Char)
  | [] => none
  | c :: cs =>
    if c = sep then some ([], cs)
    else (splitFirst sep cs).map fun p => (c :: p.1, p.2)

/-- Modelled subset of `urllib.parse.parse_qs`, in the shape the app consumes
(`params[key][0]`): split the query on `&`, keep `name=value` fields with a
non-empty value, no percent- or plus-decoding (no input below contains any).
The association list keeps field order, so `List.lookup` yields the first
value for a key, matching `parse_qs(...)[key][0]`. -/
def parse_qs (s : String) : List (String × String) :=
  (splitOnSep '&' s.toList).filterMap fun field =>
    (splitFirst '=' field).bind fun p =>
      if p.2 = [] then none else some (String.mk p.1, String.mk p.2)

def parseDigitsAux (acc : ℕ) : List Char → Option ℕ
  | [] => some acc
  | c :: cs => (digitVal c).bind fun d => parseDigitsAux (10 * acc + d) cs

/-- Python `int(str)` on an optionally signed decimal literal (`none` models
`ValueError`; surrounding whitespace and underscores are not modelled). -/
def pyInt (s : String) : Option Int :=
  match s.toList with
  | [] => none
  | '-' :: cs => if cs = [] then none else (parseDigitsAux 0 cs).map fun n => -(n : Int)
  | '+' :: cs => if cs = [] then none else (parseDigitsAux 0 cs).map fun n => (n : Int)
  | cs => (parseDigitsAux 0 cs).map fun n => (n : Int)

/-- Constant `DEFAULT_HOURS` from `src/app.py`. -/
def DEFAULT_HOURS : Int := 24

/-- The slice of `parse_query_params` (from `src/app.py`) that feeds the
generator: signal ids, live flag, and the start/end datetimes after the
`start`, `end` and `tz` parameter handling. Presentation-only fields
(signals metadata, theme, mode, highlight) are omitted: they never reach the
builder. -/
structure QueryRequest where
  signal_ids : List String
  is_live : Bool
  start : PyDatetime
  end_ : PyDatetime
deriving DecidableEq

def parse_query_params (search : String) (now : Int) : QueryRequest :=
  if search = "" then
    { signal_ids := [], is_live := false,
      start := ⟨now - DEFAULT_HOURS * 3600 * usPerSecond, none⟩,
      end_ := ⟨now, none⟩ }
  else
    let params := parse_qs (String.mk (search.toList.dropWhile fun c => c = '?'))
    let signal_ids :=
      match params.lookup "signal_id" with
      | some v => (splitOnSep ',' v.toList).map String.mk
      | none => []
    let is_live :=
      match params.lookup "live" with
      | some v => pyLower v = "true"
      | none => false
    let start0 : PyDatetime := ⟨now - DEFAULT_HOURS * 3600 * usPerSecond, none⟩
    let end0 : PyDatetime := ⟨now, none⟩
    let start1 :=
      match params.lookup "start" with
      | some v => (fromisoformat (replaceZ v)).getD start0
      | none => start0
    let end1 :=
      match params.lookup "end" with
      | some v => (fromisoformat (replaceZ v)).getD end0
      | none => end0
    let startEnd :=
      match params.lookup "tz" with
      | some v =>
        match pyInt v with
        | some tz =>
            (dtStripTz (dtSubMinutes start1 tz), dtStripTz (dtSubMinutes end1 tz))
        | none => (start1, end1)
      | none => (start1, end1)
    { signal_ids := signal_ids, is_live := is_live,
      start := startEnd.1, end_ := startEnd.2 }

/-- The app's call into `generate_historical_signals`: Python first evaluates
`end_time - start_time`, which raises `TypeError` on mixed naive/aware
operands; otherwise the run equals the pure generator on the wall-clock
values of start's frame (`start.us` to `start.us + duration`, which is
`end.us` for naive pairs and the UTC-correct stop instant for aware pairs). -/
def generate_historical_signals_py (sid : String) (start_time end_time : PyDatetime)
    (z : ℕ → ℚ) : Except String (List SignalPoint) :=
  match dtSub end_time start_time with
  | .error msg => .error msg
  | .ok duration =>
      .ok (generate_historical_signals sid start_time.us (start_time.us + duration) z)

/-- The generator calls performed by `build_signal_traces` (`src/app.py`); the
first raised `TypeError` aborts the callback. -/
def build_signal_traces (ids : List String) (start end_ : PyDatetime) (z : ℕ → ℚ) :
    Except String (List (List SignalPoint)) :=
  ids.mapM fun sid => generate_historical_signals_py sid start end_ z

/-- The data path of the `update_chart` callback (`src/app.py`): parse the URL
search string, return the empty chart for an empty id list, otherwise build
one series per requested id. -/
def update_chart (search : String) (now : Int) (z : ℕ → ℚ) :
    Except String (List (List SignalPoint)) :=
  let q := parse_query_params search now
  if q.signal_ids = [] then .ok []
  else build_signal_traces q.signal_ids q.start q.end_ z

theorem roundHalfEven_bounds (x : ℚ) :
    ⌊x⌋ ≤ roundHalfEven x ∧ roundHalfEven x ≤ ⌊x⌋ + 1 := by
  unfold roundHalfEven
  split_ifs <;> omega

theorem roundHalfEven_intCast (n : ℤ) : roundHalfEven (n : ℚ) = n := by
  unfold roundHalfEven
  rw [Int.floor_intCast]
  norm_num

theorem roundHalfEven_mono {x y : ℚ} (h : x ≤ y) :
    roundHalfEven x ≤ roundHalfEven y := by
  have hf : ⌊x⌋ ≤ ⌊y⌋ := Int.floor_le_floor h
  rcases lt_or_le ⌊x⌋ ⌊y⌋ with hlt | hle
  · have h1 := (roundHalfEven_bounds x).2
    have h2 := (roundHalfEven_bounds y).1
    omega
  · have heq : ⌊y⌋ = ⌊x⌋ := le_antisymm hle hf
    unfold roundHalfEven
    rw [heq]
    split_ifs <;> first | omega | (exfalso; linarith)

theorem round2_mono {x y : ℚ} (h : x ≤ y) : round2 x ≤ round2 y := by
  unfold round2
  have h1 : roundHalfEven (x * 100) ≤ roundHalfEven (y * 100) :=
    roundHalfEven_mono (by linarith)
  have h2 : (roundHalfEven (x * 100) : ℚ) ≤ (roundHalfEven (y * 100) : ℚ) := by
    exact_mod_cast h1
  linarith

theorem round2_intCast (n : ℤ) : round2 (n : ℚ) = n := by
  unfold round2
  have h : ((n : ℚ) * 100) = ((n * 100 : ℤ) : ℚ) := by push_cast; ring
  rw [h, roundHalfEven_intCast]
  push_cast
  ring

theorem round2_nonneg {x : ℚ} (h : 0 ≤ x) : 0 ≤ round2 x := by
  have h0 : round2 ((0 : ℤ) : ℚ) = ((0 : ℤ) : ℚ) := round2_intCast 0
  have := round2_mono (show ((0 : ℤ) : ℚ) ≤ x by exact_mod_cast h)
  rw [h0] at this
  exact_mod_cast this

theorem round2_le_100 {x : ℚ} (h : x ≤ 100) : round2 x ≤ 100 := by
  have h0 : round2 ((100 : ℤ) : ℚ) = ((100 : ℤ) : ℚ) := round2_intCast 100
  have := round2_mono (show x ≤ ((100 : ℤ) : ℚ) by exact_mod_cast h)
  rw [h0] at this
  exact_mod_cast this

theorem interval_us_pos (d : Int) : 0 < (get_aggregation_level d).1 * usPerSecond := by
  unfold get_aggregation_level usPerSecond
  split_ifs <;> norm_num

theorem stepCount_eq_zero {i c e : Int} (hpos : 0 < i) (h : e ≤ c) :
    stepCount i c e = 0 := by
  unfold stepCount
  have h1 : e - c + i - 1 ≤ i - 1 := by omega
  have h2 : (e - c + i - 1) / i ≤ (i - 1) / i := Int.ediv_le_ediv hpos h1
  have h3 : (i - 1) / i = 0 := Int.ediv_eq_zero_of_lt (by omega) (by omega)
  omega

theorem stepCount_succ {i c e : Int} (hpos : 0 < i) (h : c < e) :
    stepCount i c e = stepCount i (c + i) e + 1 := by
  unfold stepCount
  have key : (e - (c + i) + i - 1) = (e - c + i - 1) + (-1) * i := by ring
  rw [key, Int.add_mul_ediv_right _ _ (by omega : i ≠ 0)]
  have h1 : i ≤ e - c + i - 1 := by omega
  have h2 : i / i ≤ (e - c + i - 1) / i := Int.ediv_le_ediv hpos h1
  rw [Int.ediv_self (by omega : i ≠ 0)] at h2
  omega

theorem stepCount_pos {i c e : Int} (hpos : 0 < i) (h : c < e) :
    0 < stepCount i c e := by
  rw [stepCount_succ hpos h]
  omega

/-- Closed form for the builder loop: `genLoop` emits exactly
`stepCount interval_us current end_` points, the `j`-th built from the draws
at indices `k + j * n, …, k + j * n + n - 1` and stamped
`current + j * interval_us`. -/
theorem genLoop_eq (sid lvl : String) (base : ℚ) (n : ℕ) (i : Int)
    (hpos : 0 < i) (z : ℕ → ℚ) :
    ∀ (N : ℕ) (k : ℕ) (c e : Int), stepCount i c e = N →
      genLoop sid lvl base n i hpos z k c e =
        (List.range N).map fun j =>
          mkPoint sid lvl n (interval_samples z (k + j * n) base n)
            (c + (j : Int) * i) := by
  intro N
  induction N with
  | zero =>
    intro k c e hN
    have hce : ¬ c < e := by
      intro hc
      have := stepCount_pos hpos hc
      omega
    rw [genLoop, dif_neg hce]
    simp
  | succ N ih =>
    intro k c e hN
    have hce : c < e := by
      by_contra hc
      push_neg at hc
      rw [stepCount_eq_zero hpos hc] at hN
      omega
    rw [genLoop, dif_pos hce]
    have h2 : stepCount i (c + i) e = N := by
      have := stepCount_succ hpos hce
      omega
    rw [ih (k + n) (c + i) e h2, List.range_succ_eq_map]
    simp only [List.map_cons, List.map_map]
    congr 1
    · simp
    · refine List.map_congr_left fun j _ => ?_
      simp only [Function.comp]
      have h3 : k + n + j * n = k + Nat.succ j * n := by
        rw [Nat.succ_mul]
        ring
      have h4 : c + i + (j : Int) * i = c + (Nat.succ j : Int) * i := by
        push_cast
        ring
      rw [h3, h4]

/-- Closed form for `generate_historical_signals`. -/
theorem generate_eq (sid : String) (s e : Int) (z : ℕ → ℚ) :
    generate_historical_signals sid s e z =
      (List.range (stepCount ((get_aggregation_level (e - s)).1 * usPerSecond) s e)).map
        fun j =>
          mkPoint sid (get_aggregation_level (e - s)).2.1
            (get_aggregation_level (e - s)).2.2
            (interval_samples z (j * (get_aggregation_level (e - s)).2.2)
              (base_value sid) (get_aggregation_level (e - s)).2.2)
            (s + (j : Int) * ((get_aggregation_level (e - s)).1 * usPerSecond)) := by
  unfold generate_historical_signals
  rw [genLoop_eq sid _ _ _ _ (interval_us_pos (e - s)) z
      (stepCount ((get_aggregation_level (e - s)).1 * usPerSecond) s e) 0 s e rfl]
  simp

theorem clamp100_nonneg (v : ℚ) : 0 ≤ clamp100 v := le_max_left 0 _

theorem clamp100_le_100 (v : ℚ) : clamp100 v ≤ 100 :=
  max_le (by norm_num) (min_le_left _ _)

theorem interval_samples_length (z : ℕ → ℚ) (k : ℕ) (base : ℚ) (n : ℕ) :
    (interval_samples z k base n).length = n := by
  simp [interval_samples]

theorem interval_samples_bounds {z : ℕ → ℚ} {k : ℕ} {base : ℚ} {n : ℕ} {v : ℚ}
    (h : v ∈ interval_samples z k base n) : 0 ≤ v ∧ v ≤ 100 := by
  simp only [interval_samples, List.mem_map, List.mem_range] at h
  obtain ⟨i, _, rfl⟩ := h
  exact ⟨clamp100_nonneg _, clamp100_le_100 _⟩

theorem foldl_min_le_init (vs : List ℚ) : ∀ a : ℚ, vs.foldl min a ≤ a := by
  induction vs with
  | nil => intro a; simp
  | cons v vs ih => intro a; exact le_trans (ih (min a v)) (min_le_left a v)

theorem foldl_min_le_mem (vs : List ℚ) :
    ∀ a v : ℚ, v ∈ vs → vs.foldl min a ≤ v := by
  induction vs with
  | nil => intro a v hv; simp at hv
  | cons w ws ih =>
    intro a v hv
    rcases List.mem_cons.1 hv with rfl | hv
    · exact le_trans (foldl_min_le_init ws (min a v)) (min_le_right a v)
    · exact ih (min a w) v hv

theorem foldl_min_choice (vs : List ℚ) :
    ∀ a : ℚ, vs.foldl min a = a ∨ vs.foldl min a ∈ vs := by
  induction vs with
  | nil => intro a; left; rfl
  | cons w ws ih =>
    intro a
    rcases ih (min a w) with h | h
    · simp only [List.foldl_cons, h]
      rcases min_cases a w with ⟨h1, _⟩ | ⟨h1, _⟩
      · left; exact h1
      · right; rw [h1]; exact List.mem_cons_self w ws
    · right
      simp only [List.foldl_cons]
      exact List.mem_cons_of_mem _ h

theorem foldl_max_init_le (vs : List ℚ) : ∀ a : ℚ, a ≤ vs.foldl max a := by
  induction vs with
  | nil => intro a; simp
  | cons v vs ih => intro a; exact le_trans (le_max_left a v) (ih (max a v))

theorem foldl_max_mem_le (vs : List ℚ) :
    ∀ a v : ℚ, v ∈ vs → v ≤ vs.foldl max a := by
  induction vs with
  | nil => intro a v hv; simp at hv
  | cons w ws ih =>
    intro a v hv
    rcases List.mem_cons.1 hv with rfl | hv
    · exact le_trans (le_max_right a v) (foldl_max_init_le ws (max a v))
    · exact ih (max a w) v hv

theorem foldl_max_choice (vs : List ℚ) :
    ∀ a : ℚ, vs.foldl max a = a ∨ vs.foldl max a ∈ vs := by
  induction vs with
  | nil => intro a; left; rfl
  | cons w ws ih =>
    intro a
    rcases ih (max a w) with h | h
    · simp only [List.foldl_cons, h]
      rcases max_cases a w with ⟨h1, _⟩ | ⟨h1, _⟩
      · left; exact h1
      · right; rw [h1]; exact List.mem_cons_self w ws
    · right
      simp only [List.foldl_cons]
      exact List.mem_cons_of_mem _ h

theorem pyMin_le_mem {l : List ℚ} {v : ℚ} (h : v ∈ l) : pyMin l ≤ v := by
  cases l with
  | nil => simp at h
  | cons w ws =>
    rcases List.mem_cons.1 h with rfl | hv
    · exact foldl_min_le_init ws v
    · exact foldl_min_le_mem ws w v hv

theorem mem_le_pyMax {l : List ℚ} {v : ℚ} (h : v ∈ l) : v ≤ pyMax l := by
  cases l with
  | nil => simp at h
  | cons w ws =>
    rcases List.mem_cons.1 h with rfl | hv
    · exact foldl_max_init_le ws v
    · exact foldl_max_mem_le ws w v hv

theorem pyMin_mem {l : List ℚ} (h : l ≠ []) : pyMin l ∈ l := by
  cases l with
  | nil => exact absurd rfl h
  | cons w ws =>
    rcases foldl_min_choice ws w with h1 | h1
    · rw [show pyMin (w :: ws) = ws.foldl min w from rfl, h1]
      exact List.mem_cons_self w ws
    · exact List.mem_cons_of_mem _ h1

theorem pyMax_mem {l : List ℚ} (h : l ≠ []) : pyMax l ∈ l := by
  cases l with
  | nil => exact absurd rfl h
  | cons w ws =>
    rcases foldl_max_choice ws w with h1 | h1
    · rw [show pyMax (w :: ws) = ws.foldl max w from rfl, h1]
      exact List.mem_cons_self w ws
    · exact List.mem_cons_of_mem _ h1

theorem length_mul_le_sum (l : List ℚ) (a : ℚ) (h : ∀ x ∈ l, a ≤ x) :
    (l.length : ℚ) * a ≤ l.sum := by
  induction l with
  | nil => simp
  | cons w ws ih =>
    have h1 : a ≤ w := h w (List.mem_cons_self w ws)
    have h2 := ih (fun x hx => h x (List.mem_cons_of_mem w hx))
    simp only [List.length_cons, List.sum_cons]
    push_cast
    linarith

theorem sum_le_length_mul (l : List ℚ) (a : ℚ) (h : ∀ x ∈ l, x ≤ a) :
    l.sum ≤ (l.length : ℚ) * a := by
  induction l with
  | nil => simp
  | cons w ws ih =>
    have h1 : w ≤ a := h w (List.mem_cons_self w ws)
    have h2 := ih (fun x hx => h x (List.mem_cons_of_mem w hx))
    simp only [List.length_cons, List.sum_cons]
    push_cast
    linarith

theorem pyMin_le_mean {l : List ℚ} (h : l ≠ []) :
    pyMin l ≤ l.sum / (l.length : ℚ) := by
  have hpos : (0 : ℚ) < (l.length : ℚ) := by
    have : 0 < l.length := List.length_pos.2 h
    exact_mod_cast this
  rw [le_div_iff₀ hpos]
  have := length_mul_le_sum l (pyMin l) (fun x hx => pyMin_le_mem hx)
  linarith

theorem mean_le_pyMax {l : List ℚ} (h : l ≠ []) :
    l.sum / (l.length : ℚ) ≤ pyMax l := by
  have hpos : (0 : ℚ) < (l.length : ℚ) := by
    have : 0 < l.length := List.length_pos.2 h
    exact_mod_cast this
  rw [div_le_iff₀ hpos]
  have := sum_le_length_mul l (pyMax l) (fun x hx => mem_le_pyMax hx)
  linarith

theorem samples_per_interval_pos (d : Int) : 0 < (get_aggregation_level d).2.2 := by
  unfold get_aggregation_level
  split_ifs <;> norm_num

theorem generate_getElem? (sid : String) (s e : Int) (z : ℕ → ℚ) (j : ℕ)
    (hj : j < stepCount ((get_aggregation_level (e - s)).1 * usPerSecond) s e) :
    (generate_historical_signals sid s e z)[j]? =
      some (mkPoint sid (get_aggregation_level (e - s)).2.1
        (get_aggregation_level (e - s)).2.2
        (interval_samples z (j * (get_aggregation_level (e - s)).2.2)
          (base_value sid) (get_aggregation_level (e - s)).2.2)
        (s + (j : Int) * ((get_aggregation_level (e - s)).1 * usPerSecond))) := by
  rw [generate_eq, List.getElem?_map]
  simp [List.getElem?_range, hj]

theorem round2_fifty : round2 (50 : ℚ) = 50 := by
  have h := round2_intCast 50
  norm_num at h
  exact h

theorem samples_X : interval_samples zeroDraws 0 (base_value "X") 2 = [50, 50] := by
  rw [show base_value "X" = 50 from by decide]
  unfold interval_samples calculate_average_value gauss zeroDraws
  rw [show List.range 2 = [0, 1] from rfl]
  simp only [List.map_cons, List.map_nil]
  norm_num [clamp100, round2_fifty]

/-- A fully evaluated point of a concrete run: the first point of the series
for signal "X" over `[0, 60 s)` with all-zero draws. -/
theorem generate_X_point :
    (generate_historical_signals "X" 0 60000000 zeroDraws)[0]? =
      some ⟨"X", 0, 50, "normal", "minutely", 2, 50, 50⟩ := by
  rw [generate_getElem? "X" 0 60000000 zeroDraws 0 (by decide)]
  congr 1
  rw [show get_aggregation_level ((60000000 : Int) - 0) = (60, "minutely", 2) from by decide]
  simp only
  rw [show (0 * 2 : ℕ) = 0 from rfl, samples_X]
  unfold mkPoint
  norm_num [pyMin, pyMax, sample_status, round2_fifty, usPerSecond]
  rw [show List.count "critical" ["normal", "normal"] = 0 from by decide,
    show List.count "high" ["normal", "normal"] = 0 from by decide]
  norm_num

/-- C2: `get_aggregation_level` always returns exactly one of the four planned
`(interval_seconds, level_name, samples_per_interval)` tuples, selected by
strict comparisons on the whole-day-truncated duration; in particular a span
of exactly 365 days plans "daily", exactly 7 days plans "hourly", and exactly
1 day plans "minutely". -/
theorem aggregation_level_cases :
    (∀ d : Int,
      get_aggregation_level d = (604800, "weekly", 7) ∨
      get_aggregation_level d = (86400, "daily", 6) ∨
      get_aggregation_level d = (3600, "hourly", 4) ∨
      get_aggregation_level d = (60, "minutely", 2)) ∧
    get_aggregation_level (365 * usPerDay) = (86400, "daily", 6) ∧
    get_aggregation_level (7 * usPerDay) = (3600, "hourly", 4) ∧
    get_aggregation_level (1 * usPerDay) = (60, "minutely", 2) := by
  refine ⟨fun d => ?_, by decide, by decide, by decide⟩
  unfold get_aggregation_level
  split_ifs <;> simp

/-- C5: for `end_time ≤ start_time` the builder returns the empty sequence
(and, being a total function of its inputs, raises no exception). -/
theorem empty_for_nonpositive_span (sid : String) (s e : Int) (z : ℕ → ℚ)
    (h : e ≤ s) : generate_historical_signals sid s e z = [] := by
  rw [generate_eq, stepCount_eq_zero (interval_us_pos (e - s)) h]
  simp

/-- Witness for C5 at the concrete degenerate range `start = 5`, `end = 0`. -/
theorem empty_for_nonpositive_span_witness :
    (0 : Int) ≤ 5 ∧ generate_historical_signals "Temperature" 5 0 (fun _ => 0) = [] :=
  ⟨by norm_num, empty_for_nonpositive_span "Temperature" 5 0 (fun _ => 0) (by norm_num)⟩

/-- C6: the builder's base value is determined by the identifier's prefix
before an underscore (the whole identifier when it contains none):
Temperature → 20, Humidity → 60, Pressure → 1013, Power → 500, Flow → 100,
and 50 for every unrecognized identifier, with no error raised. -/
theorem base_value_lookup_spec :
    (∀ signal_id : String,
      base_key signal_id ∉ (["Temperature", "Humidity", "Pressure", "Power", "Flow"] : List String) →
      base_value signal_id = 50) ∧
    base_value "Temperature" = 20 ∧ base_value "Humidity" = 60 ∧
    base_value "Pressure" = 1013 ∧ base_value "Power" = 500 ∧
    base_value "Flow" = 100 ∧
    base_value "Temperature_3" = 20 ∧ base_value "Pressure_A1" = 1013 ∧
    base_value "Voltage" = 50 ∧ base_value "Voltage_2" = 50 := by
  refine ⟨fun sid h => ?_, by decide, by decide, by decide, by decide, by decide,
    by decide, by decide, by decide, by decide⟩
  simp only [List.mem_cons, List.not_mem_nil, not_or, or_false] at h
  obtain ⟨h1, h2, h3, h4, h5⟩ := h
  have e1 : (base_key sid == "Temperature") = false := beq_eq_false_iff_ne.2 h1
  have e2 : (base_key sid == "Humidity") = false := beq_eq_false_iff_ne.2 h2
  have e3 : (base_key sid == "Pressure") = false := beq_eq_false_iff_ne.2 h3
  have e4 : (base_key sid == "Power") = false := beq_eq_false_iff_ne.2 h4
  have e5 : (base_key sid == "Flow") = false := beq_eq_false_iff_ne.2 h5
  simp [base_value, signal_base_values, List.lookup, e1, e2, e3, e4, e5]

/-- Witness for C6's default branch at the concrete identifier "Voltage_7". -/
theorem base_value_lookup_spec_witness :
    base_key "Voltage_7" ∉ (["Temperature", "Humidity", "Pressure", "Power", "Flow"] : List String) ∧
    base_value "Voltage_7" = 50 :=
  ⟨by decide, base_value_lookup_spec.1 "Voltage_7" (by decide)⟩

/-- C8: structural idempotence — two runs with identical inputs but possibly
different random draws agree on length, timestamps, aggregation levels and
sample counts. -/
theorem structure_idempotent (sid : String) (s e : Int) (z1 z2 : ℕ → ℚ) :
    (generate_historical_signals sid s e z1).length =
      (generate_historical_signals sid s e z2).length ∧
    (generate_historical_signals sid s e z1).map SignalPoint.timestamp =
      (generate_historical_signals sid s e z2).map SignalPoint.timestamp ∧
    (generate_historical_signals sid s e z1).map SignalPoint.aggregation_level =
      (generate_historical_signals sid s e z2).map SignalPoint.aggregation_level ∧
    (generate_historical_signals sid s e z1).map SignalPoint.sample_count =
      (generate_historical_signals sid s e z2).map SignalPoint.sample_count := by
  rw [generate_eq sid s e z1, generate_eq sid s e z2]
  simp [mkPoint]

/-- C10: the generator terminates for every input: the planned interval is
strictly positive in all four branches, and the builder loop runs for exactly
`stepCount` (finitely many) iterations. -/
theorem generator_terminates :
    (∀ d : Int, 0 < (get_aggregation_level d).1) ∧
    (∀ (sid : String) (s e : Int) (z : ℕ → ℚ),
      (generate_historical_signals sid s e z).length =
        stepCount ((get_aggregation_level (e - s)).1 * usPerSecond) s e) := by
  constructor
  · intro d
    unfold get_aggregation_level
    split_ifs <;> norm_num
  · intro sid s e z
    rw [generate_eq]
    simp

theorem stepCount_ge_one {i s e : Int} (hpos : 0 < i) (h : s < e) :
    1 ≤ (e - s + i - 1) / i := by
  have h1 : i ≤ e - s + i - 1 := by omega
  have h2 : i / i ≤ (e - s + i - 1) / i := Int.ediv_le_ediv hpos h1
  rw [Int.ediv_self (by omega : i ≠ 0)] at h2
  exact h2

theorem last_timestamp_lt {i s e : Int} (hpos : 0 < i) (h : s < e) :
    s + ((stepCount i s e : ℤ) - 1) * i < e := by
  have hq := stepCount_ge_one hpos h
  have hcast : (stepCount i s e : ℤ) = (e - s + i - 1) / i := by
    unfold stepCount
    exact Int.toNat_of_nonneg (by omega)
  rw [hcast]
  have h0 : (e - s + i - 1) % i ≥ 0 := Int.emod_nonneg _ (by omega)
  have h1 := Int.ediv_add_emod (e - s + i - 1) i
  nlinarith [h1, h0]

/-- C1: for `end_time > start_time` the builder returns a non-empty sequence
whose first timestamp is `start_time`, whose consecutive timestamps each
increase by exactly the planned `interval_seconds`, and whose last timestamp
is strictly below `end_time`. -/
theorem series_grid (sid : String) (s e : Int) (z : ℕ → ℚ) (h : s < e) :
    generate_historical_signals sid s e z ≠ [] ∧
    (∀ p, (generate_historical_signals sid s e z)[0]? = some p → p.timestamp = s) ∧
    (∀ (j : ℕ) (p q : SignalPoint),
      (generate_historical_signals sid s e z)[j]? = some p →
      (generate_historical_signals sid s e z)[j + 1]? = some q →
      q.timestamp = p.timestamp + (get_aggregation_level (e - s)).1 * usPerSecond) ∧
    (∀ p, (generate_historical_signals sid s e z).getLast? = some p →
      p.timestamp < e) := by
  have hipos : 0 < (get_aggregation_level (e - s)).1 * usPerSecond :=
    interval_us_pos (e - s)
  have hN : 0 < stepCount ((get_aggregation_level (e - s)).1 * usPerSecond) s e :=
    stepCount_pos hipos h
  have hlen : (generate_historical_signals sid s e z).length =
      stepCount ((get_aggregation_level (e - s)).1 * usPerSecond) s e := by
    rw [generate_eq]
    simp
  refine ⟨?_, ?_, ?_, ?_⟩
  · intro hc
    rw [hc] at hlen
    simp at hlen
    omega
  · intro p hp
    rw [generate_getElem? sid s e z 0 hN] at hp
    have := Option.some.inj hp
    rw [← this]
    simp [mkPoint]
  · intro j p q hp hq
    have hjq : j + 1 < stepCount ((get_aggregation_level (e - s)).1 * usPerSecond) s e := by
      have := (List.getElem?_eq_some_iff.1 hq).1
      omega
    have hjp : j < stepCount ((get_aggregation_level (e - s)).1 * usPerSecond) s e := by
      omega
    rw [generate_getElem? sid s e z j hjp] at hp
    rw [generate_getElem? sid s e z (j + 1) hjq] at hq
    rw [← Option.some.inj hp, ← Option.some.inj hq]
    simp only [mkPoint]
    push_cast
    ring
  · intro p hp
    rw [List.getLast?_eq_getElem?, hlen] at hp
    have hidx : stepCount ((get_aggregation_level (e - s)).1 * usPerSecond) s e - 1 <
        stepCount ((get_aggregation_level (e - s)).1 * usPerSecond) s e := by
      omega
    rw [generate_getElem? sid s e z _ hidx] at hp
    rw [← Option.some.inj hp]
    simp only [mkPoint]
    have := last_timestamp_lt hipos h
    have hc : ((stepCount ((get_aggregation_level (e - s)).1 * usPerSecond) s e - 1 : ℕ) : ℤ) =
        (stepCount ((get_aggregation_level (e - s)).1 * usPerSecond) s e : ℤ) - 1 := by
      omega
    rw [hc]
    exact this

/-- Witness for C1 at the concrete range `[0, 120 s)` (minutely plan). -/
theorem series_grid_witness :
    (0 : Int) < 120000000 ∧
    (generate_historical_signals "Temperature" 0 120000000 (fun _ => 0) ≠ [] ∧
     (∀ p, (generate_historical_signals "Temperature" 0 120000000 (fun _ => 0))[0]? = some p →
        p.timestamp = 0) ∧
     (∀ (j : ℕ) (p q : SignalPoint),
        (generate_historical_signals "Temperature" 0 120000000 (fun _ => 0))[j]? = some p →
        (generate_historical_signals "Temperature" 0 120000000 (fun _ => 0))[j + 1]? = some q →
        q.timestamp = p.timestamp +
          (get_aggregation_level (120000000 - 0)).1 * usPerSecond) ∧
     (∀ p, (generate_historical_signals "Temperature" 0 120000000 (fun _ => 0)).getLast? = some p →
        p.timestamp < 120000000)) :=
  ⟨by norm_num, series_grid "Temperature" 0 120000000 (fun _ => 0) (by norm_num)⟩

/-- C4: every emitted point satisfies `min_value ≤ value ≤ max_value`, and the
value and both bounds lie in `[0, 100]`, because each raw sample is clamped to
`[0, 100]` before the mean, min and max are taken and rounded. -/
theorem point_bounds (sid : String) (s e : Int) (z : ℕ → ℚ) (p : SignalPoint)
    (hp : p ∈ generate_historical_signals sid s e z) :
    p.min_value ≤ p.value ∧ p.value ≤ p.max_value ∧
    0 ≤ p.value ∧ p.value ≤ 100 ∧
    0 ≤ p.min_value ∧ p.min_value ≤ 100 ∧
    0 ≤ p.max_value ∧ p.max_value ≤ 100 := by
  rw [generate_eq] at hp
  simp only [List.mem_map, List.mem_range] at hp
  obtain ⟨j, hj, rfl⟩ := hp
  have hnpos : 0 < (get_aggregation_level (e - s)).2.2 :=
    samples_per_interval_pos (e - s)
  have hne : interval_samples z (j * (get_aggregation_level (e - s)).2.2)
      (base_value sid) (get_aggregation_level (e - s)).2.2 ≠ [] := by
    intro hc
    have hlen := interval_samples_length z (j * (get_aggregation_level (e - s)).2.2)
      (base_value sid) (get_aggregation_level (e - s)).2.2
    rw [hc] at hlen
    simp at hlen
    omega
  set samples := interval_samples z (j * (get_aggregation_level (e - s)).2.2)
    (base_value sid) (get_aggregation_level (e - s)).2.2 with hsamp
  have h1 : pyMin samples ≤ samples.sum / (samples.length : ℚ) := pyMin_le_mean hne
  have h2 : samples.sum / (samples.length : ℚ) ≤ pyMax samples := mean_le_pyMax hne
  have hminb := interval_samples_bounds (pyMin_mem hne)
  have hmaxb := interval_samples_bounds (pyMax_mem hne)
  simp only [mkPoint]
  refine ⟨round2_mono h1, round2_mono h2, ?_, ?_, ?_, ?_, ?_, ?_⟩
  · exact round2_nonneg (le_trans hminb.1 h1)
  · exact round2_le_100 (le_trans h2 hmaxb.2)
  · exact round2_nonneg hminb.1
  · exact round2_le_100 hminb.2
  · exact round2_nonneg hmaxb.1
  · exact round2_le_100 hmaxb.2

/-- Witness for C4: a concrete point of a concrete run and its bounds. -/
theorem point_bounds_witness :
    (⟨"X", 0, 50, "normal", "minutely", 2, 50, 50⟩ : SignalPoint) ∈
      generate_historical_signals "X" 0 60000000 zeroDraws ∧
    ((⟨"X", 0, 50, "normal", "minutely", 2, 50, 50⟩ : SignalPoint).min_value ≤
      (⟨"X", 0, 50, "normal", "minutely", 2, 50, 50⟩ : SignalPoint).value ∧
     (⟨"X", 0, 50, "normal", "minutely", 2, 50, 50⟩ : SignalPoint).value ≤
      (⟨"X", 0, 50, "normal", "minutely", 2, 50, 50⟩ : SignalPoint).max_value ∧
     0 ≤ (⟨"X", 0, 50, "normal", "minutely", 2, 50, 50⟩ : SignalPoint).value ∧
     (⟨"X", 0, 50, "normal", "minutely", 2, 50, 50⟩ : SignalPoint).value ≤ 100 ∧
     0 ≤ (⟨"X", 0, 50, "normal", "minutely", 2, 50, 50⟩ : SignalPoint).min_value ∧
     (⟨"X", 0, 50, "normal", "minutely", 2, 50, 50⟩ : SignalPoint).min_value ≤ 100 ∧
     0 ≤ (⟨"X", 0, 50, "normal", "minutely", 2, 50, 50⟩ : SignalPoint).max_value ∧
     (⟨"X", 0, 50, "normal", "minutely", 2, 50, 50⟩ : SignalPoint).max_value ≤ 100) := by
  have hmem : (⟨"X", 0, 50, "normal", "minutely", 2, 50, 50⟩ : SignalPoint) ∈
      generate_historical_signals "X" 0 60000000 zeroDraws :=
    List.getElem?_mem generate_X_point
  exact ⟨hmem, point_bounds "X" 0 60000000 zeroDraws _ hmem⟩

/-- C3: a raw sample is classified critical exactly when its clamped value is
strictly above 90, high exactly when it is strictly above 60 (but not above
90), else normal; and an emitted interval's status is critical when its
critical-sample count strictly exceeds `0.3 · samples_per_interval`, otherwise
high when its high-sample count does, otherwise normal. -/
theorem status_rule :
    (∀ v : ℚ,
      (sample_status v = "critical" ↔ 90 < v) ∧
      (sample_status v = "high" ↔ 60 < v ∧ ¬ 90 < v) ∧
      (sample_status v = "normal" ↔ ¬ 60 < v)) ∧
    (∀ (sid : String) (s e : Int) (z : ℕ → ℚ) (j : ℕ) (p : SignalPoint),
      (generate_historical_signals sid s e z)[j]? = some p →
      p.status =
        (if (((interval_samples z (j * (get_aggregation_level (e - s)).2.2)
                (base_value sid) (get_aggregation_level (e - s)).2.2).map
                sample_status).count "critical" : ℚ) >
            ((get_aggregation_level (e - s)).2.2 : ℚ) * (3 / 10) then "critical"
         else if (((interval_samples z (j * (get_aggregation_level (e - s)).2.2)
                (base_value sid) (get_aggregation_level (e - s)).2.2).map
                sample_status).count "high" : ℚ) >
            ((get_aggregation_level (e - s)).2.2 : ℚ) * (3 / 10) then "high"
         else "normal")) := by
  constructor
  · intro v
    unfold sample_status
    rcases lt_or_le 90 v with h90 | h90
    · have h60 : (60 : ℚ) < v := by linarith
      rw [if_pos h90]
      exact ⟨by simp [h90], by simp [h90], by simp [h60]⟩
    · have h90a : ¬ (90 : ℚ) < v := not_lt.2 h90
      rw [if_neg h90a]
      rcases lt_or_le 60 v with h60 | h60
      · rw [if_pos h60]
        exact ⟨by simp [h90a], by simp [h60, h90a], by simp [h60]⟩
      · have h60a : ¬ (60 : ℚ) < v := not_lt.2 h60
        rw [if_neg h60a]
        exact ⟨by simp [h90a], by simp [h60a], by simp [h60a]⟩
  · intro sid s e z j p hp
    have hlen : (generate_historical_signals sid s e z).length =
        stepCount ((get_aggregation_level (e - s)).1 * usPerSecond) s e := by
      rw [generate_eq]
      simp
    have hj : j < stepCount ((get_aggregation_level (e - s)).1 * usPerSecond) s e := by
      have h2 := (List.getElem?_eq_some_iff.1 hp).1
      rw [hlen] at h2
      exact h2
    rw [generate_getElem? sid s e z j hj] at hp
    rw [← Option.some.inj hp]
    simp only [mkPoint]

/-- Witness for C3 at a concrete run where all samples are "normal". -/
theorem status_rule_witness :
    (generate_historical_signals "X" 0 60000000 zeroDraws)[0]? =
      some ⟨"X", 0, 50, "normal", "minutely", 2, 50, 50⟩ ∧
    (⟨"X", 0, 50, "normal", "minutely", 2, 50, 50⟩ : SignalPoint).status =
      (if (((interval_samples zeroDraws
              (0 * (get_aggregation_level ((60000000 : Int) - 0)).2.2)
              (base_value "X") (get_aggregation_level ((60000000 : Int) - 0)).2.2).map
              sample_status).count "critical" : ℚ) >
          ((get_aggregation_level ((60000000 : Int) - 0)).2.2 : ℚ) * (3 / 10) then "critical"
       else if (((interval_samples zeroDraws
              (0 * (get_aggregation_level ((60000000 : Int) - 0)).2.2)
              (base_value "X") (get_aggregation_level ((60000000 : Int) - 0)).2.2).map
              sample_status).count "high" : ℚ) >
          ((get_aggregation_level ((60000000 : Int) - 0)).2.2 : ℚ) * (3 / 10) then "high"
       else "normal") :=
  ⟨generate_X_point, status_rule.2 "X" 0 60000000 zeroDraws 0 _ generate_X_point⟩

/-- C7: the 2-day span 2024-01-01T00:00:00 to 2024-01-03T00:00:00 plans
hourly aggregation (3600 s interval, 4 samples per interval) and yields
exactly 48 points; the 30-minute span from the same start plans minutely
aggregation (60 s interval) and yields exactly 30 points, whatever the
draws. -/
theorem scenario_counts :
    get_aggregation_level (datetimeUs 2024 1 3 0 0 0 - datetimeUs 2024 1 1 0 0 0) =
      (3600, "hourly", 4) ∧
    (∀ (sid : String) (z : ℕ → ℚ),
      (generate_historical_signals sid (datetimeUs 2024 1 1 0 0 0)
        (datetimeUs 2024 1 3 0 0 0) z).length = 48) ∧
    get_aggregation_level (datetimeUs 2024 1 1 0 30 0 - datetimeUs 2024 1 1 0 0 0) =
      (60, "minutely", 2) ∧
    (∀ (sid : String) (z : ℕ → ℚ),
      (generate_historical_signals sid (datetimeUs 2024 1 1 0 0 0)
        (datetimeUs 2024 1 1 0 30 0) z).length = 30) := by
  refine ⟨by decide, fun sid z => ?_, by decide, fun sid z => ?_⟩
  · rw [generate_eq]
    simp only [List.length_map, List.length_range]
    decide
  · rw [generate_eq]
    simp only [List.length_map, List.length_range]
    decide

/-- C9 (refuted by the code): malformed `start`, `end` and `tz` values are
indeed recovered to the defaults, but a well-formed `start` carrying a UTC
offset (here a trailing `Z`), with `end` and `tz` absent, reaches the builder
as an aware datetime paired with the naive default end, and the generator's
first operation (`end_time - start_time`) raises `TypeError` — so the
query-parameter layer does not shield the builder from every combination of
present, absent or malformed `start`/`end`/`tz` parameters. -/
theorem update_chart_tz_fatal (now : Int) (z : ℕ → ℚ) :
    parse_query_params "?signal_id=Temperature&start=garbage&end=12&tz=x" now =
      { signal_ids := ["Temperature"], is_live := false,
        start := ⟨now - DEFAULT_HOURS * 3600 * usPerSecond, none⟩,
        end_ := ⟨now, none⟩ } ∧
    update_chart "?signal_id=Temperature&start=2024-01-01T00:00:00Z" now z =
      .error "TypeError: cannot subtract mixed naive and aware datetimes" := by
  constructor
  · rfl
  · rfl

end SignalGen
